import Mathlib

/-
Verification of the Mal interpreter (yamajik/mal, TypeScript).

The repository ships two revisions of the step file: an earlier one
(src/unnamed/part_000, whose IF helper evaluates the chosen branch itself)
and the final trampolined one (src/unnamed/part_001, whose IF helper returns
the chosen branch unevaluated for the loop to continue with).  The top-level
definitions below embed the final revision (part_001, together with the
checker.ts bundled in that file); the namespace Rev0 embeds the earlier
revision (part_000).  src/yamajik/types.ts (term equality, MalList.get) is
embedded in the MalObj/MalList sections.

Evaluation is embedded with an explicit fuel parameter: every function of
the mutual block matches its fuel first and passes the decremented fuel to
every call, so the whole block is structurally recursive and computes by
kernel reduction.  Running out of fuel yields the result Exc.fuel, which is
an artifact of the embedding, distinct from every interpreter exception
(Exc.thrown); theorems about evaluation therefore hypothesise an .ok or
.thrown outcome.  JavaScript-level mutation is made explicit: environments
live in a Store (a list of frames addressed by index) that every evaluation
step threads through.
-/

/-- The Term data model of types.ts.  MalError (a wrapped term plus the trace
of asts pushed while unwinding) is the constructor `error`; MalUndefined is
`undefined`; a MalFunction carries its body ast, its parameter terms, the
index of its captured environment frame and its isMacro flag (its JavaScript
closure `value` is determined by those fields and so is not a field here).
A MalHashMap's entries are flattened key value key value into one list. -/
inductive Term where
  | nil
  | bool (b : Bool)
  | number (n : Int)
  | str (s : String)
  | keyword (s : String)
  | symbol (s : String)
  | list (xs : List Term)
  | vector (xs : List Term)
  | hashmap (kvs : List Term)
  | fn (ast : Term) (params : List Term) (env : Nat) (isMacro : Bool)
  | nativeFn (name : String)
  | atom (ref : Nat)
  | error (wrapped : Term) (trace : List Term)
  | undefined

/-- The exception channel.  `thrown t` is a JavaScript throw whose payload is
the term t (MalError extends MalType, so interpreter errors and `(throw x)`
payloads both travel here; checker.ts's bare `throw false` is modelled as
throwing the boolean term).  `fuel` is the embedding's out-of-fuel marker,
not an interpreter exception. -/
inductive Exc where
  | thrown (t : Term)
  | fuel

/-- Modelled from the spec: env.ts is absent from src.  One environment
frame: the parent link (absent at root) and the Symbol-to-Term mapping
(spec section 4.3). -/
structure Frame where
  parent : Option Nat
  entries : List (String × Term)

/-- The mutable heap of environment frames; a MalEnv value is an index into
it.  Frames are only ever appended, so a parent index is always smaller
than its child's. -/
abbrev Store := List Frame

/-- The result of one evaluation call: the value or exception, and the store
as the call left it. -/
abbrev EvalRes := Except Exc Term × Store

/-- checker.ts isMalList: instance of MalList. -/
def isMalList : Term → Bool
  | .list _ => true
  | _ => false

/-- checker.ts isMalVector: instance of MalVector and not of MalList. -/
def isMalVector : Term → Bool
  | .vector _ => true
  | _ => false

/-- checker.ts isMalSequential: instance of MalVector, the base class of
MalList, so a List or a Vector. -/
def isMalSequential : Term → Bool
  | .list _ => true
  | .vector _ => true
  | _ => false

/-- checker.ts isMalSymbol. -/
def isMalSymbol : Term → Bool
  | .symbol _ => true
  | _ => false

/-- checker.ts isMalFunction (a user MalFunction, not a native one). -/
def isMalFunction : Term → Bool
  | .fn _ _ _ _ => true
  | _ => false

/-- checker.ts isMalError. -/
def isMalError : Term → Bool
  | .error _ _ => true
  | _ => false

/-- checker.ts isPositive: everything but MalBoolean false and MalNil. -/
def isPositive : Term → Bool
  | .bool false => false
  | .nil => false
  | _ => true

/-- types.ts MalSymbol.equal against an interned symbol of the given name:
symbols are interned, so this is name equality, and false on non-symbols. -/
def isSymNamed (name : String) : Term → Bool
  | .symbol s => s == name
  | _ => false

/-- checker.ts isMalSymbolCatch: a symbol whose value is Symbols.Catch. -/
def isMalSymbolCatch (t : Term) : Bool := isSymNamed "catch*" t

/-- The element list of a sequential term (the Array value of a MalList or
MalVector); empty for every other term. -/
def seqElems : Term → List Term
  | .list xs => xs
  | .vector xs => xs
  | _ => []

/-- Modelled from the spec: errors.ts is absent from src.  Each internal
interpreter error is an Error term wrapping a message string, with an empty
trace, thrown on the exception channel. -/
def throwMal (msg : String) : Exc := .thrown (.error (.str msg) [])

namespace MalList

/-- types.ts MalList.get: `this.value[index] || new MalUndefined()`.  A
present element is an object and objects are truthy, so the `||` falls to
MalUndefined exactly when the index misses the array. -/
def get (value : List Term) (index : Int) : Term :=
  if index < 0 then Term.undefined
  else
    match value[index.toNat]? with
    | some t => t
    | none => Term.undefined

/-- types.ts MalList.first: get(0). -/
def first (value : List Term) : Term := get value 0

/-- The `last()` used by part_001's DO; the newer types.ts is absent from
src, so it is modelled as get(length - 1), matching get's conventions. -/
def last (value : List Term) : Term := get value ((value.length : Int) - 1)

end MalList

/-- Modelled from the spec: env.ts is absent from src.  Lookup inside one
frame's mapping (a JavaScript Map: one entry per key). -/
def findEntry : List (String × Term) → String → Option Term
  | [], _ => none
  | (k, v) :: rest, key => if k = key then some v else findEntry rest key

/-- Modelled from the spec: env.ts is absent from src.  Map.set semantics:
replace the entry if the key is present, append it otherwise. -/
def setEntry : List (String × Term) → String → Term → List (String × Term)
  | [], key, v => [(key, v)]
  | (k, w) :: rest, key, v =>
    if k = key then (key, v) :: rest else (k, w) :: setEntry rest key v

/-- Modelled from the spec: env.ts is absent from src.  Walk the parent
chain looking for the symbol (spec 4.3 `find` followed by the frame read).
The chain fuel is the store size: parents are always older than children,
so a well-formed chain is no longer than the store. -/
def lookupChain : Nat → Store → Nat → String → Option Term
  | 0, _, _, _ => none
  | chain+1, st, ref, key =>
    match st[ref]? with
    | none => none
    | some fr =>
      match findEntry fr.entries key with
      | some v => some v
      | none =>
        match fr.parent with
        | some p => lookupChain chain st p key
        | none => none

/-- Modelled from the spec: env.ts is absent from src.  The nearest binding
of the symbol reachable from the frame. -/
def envLookup (st : Store) (ref : Nat) (key : String) : Option Term :=
  lookupChain st.length st ref key

/-- Modelled from the spec: env.ts is absent from src.  env.has. -/
def envHas (st : Store) (ref : Nat) (key : String) : Bool :=
  (envLookup st ref key).isSome

/-- Modelled from the spec: env.ts is absent from src.  env.get: the bound
term, or the UnboundSymbol error. -/
def envGet (st : Store) (ref : Nat) (key : String) : Except Exc Term :=
  match envLookup st ref key with
  | some v => .ok v
  | none => .error (throwMal ("unbound symbol: " ++ key))

/-- Modelled from the spec: env.ts is absent from src.  env.set writes the
binding into this frame (the stored term is returned by the caller). -/
def envSet (st : Store) (ref : Nat) (key : String) (v : Term) : Store :=
  match st[ref]? with
  | some fr => st.set ref { fr with entries := setEntry fr.entries key v }
  | none => st

/-- Modelled from the spec: env.ts is absent from src.  Parameter binding
(spec 4.3): positional parameters bind one argument each; the rest marker
`&` binds the following symbol to a List of all remaining arguments; an
argument-count or parameter-shape mismatch is a bind failure (none). -/
def bindEntries : List Term → List Term → Option (List (String × Term))
  | [], [] => some []
  | .symbol p :: ps, args =>
    if p = "&" then
      match ps, args with
      | [.symbol r], rest => some [(r, .list rest)]
      | _, _ => none
    else
      match args with
      | a :: rest =>
        match bindEntries ps rest with
        | some es => some ((p, a) :: es)
        | none => none
      | [] => none
  | _, _ => none

/-- Modelled from the spec: env.ts is absent from src.  `new MalEnv(parent,
bindings, exprs)`: allocate a child frame holding the parameter bindings. -/
def newEnvBind (st : Store) (parent : Nat) (params : List Term)
    (args : List Term) : Except Exc (Nat × Store) :=
  match bindEntries params args with
  | some es => .ok (st.length, st ++ [⟨some parent, es⟩])
  | none => .error (throwMal "invalid function parameters")

/-- Modelled from the spec: env.ts is absent from src.  `new MalEnv(parent)`:
allocate an empty child frame. -/
def newEnv (st : Store) (parent : Nat) : Nat × Store :=
  (st.length, st ++ [⟨some parent, []⟩])

/-- types.ts MalError.pushAst as the newer revision uses it (that file is
absent from src); modelled from the spec: the current ast is appended to the
error's trace (spec 4.4.3).  Identity on non-error terms (EVAL only calls it
after an isMalError check). -/
def pushAst (ast : Term) : Term → Term
  | .error w tr => .error w (tr ++ [ast])
  | t => t

/-- Modelled from the spec: core.ts is absent from src.  The one native the
claims exercise: `throw` raises its (already evaluated) argument term itself
on the exception channel, which is what lets the spec's scenario
`(try* (throw ...) (catch* err ...))` see the thrown term unwrapped (spec
sections 7 and 8).  Every other name is an undefined native here. -/
def applyNative (name : String) (args : List Term) : Except Exc Term :=
  if name = "throw" then .error (.thrown (MalList.first args))
  else .error (throwMal ("undefined native function: " ++ name))

/-- part_001 QUOTE: arity 1, return the argument unevaluated. -/
def QUOTE (args : List Term) : Except Exc Term :=
  match args with
  | [ast] => .ok ast
  | _ => .error (throwMal "parameters length unexcepted: quote")

/-- checker.ts checkMalBindings body: every binding a symbol, and the rest
marker only in the next-to-last position.  The index runs over the list with
its length fixed, mirroring the source's indexed loop. -/
def bindingsCheck : List Term → Nat → Nat → Except Exc Unit
  | [], _, _ => .ok ()
  | b :: rest, i, len =>
    match b with
    | .symbol s =>
      if s = "&" && (i ≠ len - 2 || len < 2) then
        .error (throwMal "invalid rest parameter")
      else bindingsCheck rest (i + 1) len
    | _ => .error (throwMal "unexpected token type, excepted: MalSymbol")

/-- checker.ts checkMalBindings: the bindings term must be sequential and
every element a symbol with `&` only penultimate. -/
def checkMalBindings (bindings : Term) : Except Exc Unit :=
  if isMalSequential bindings = false then
    .error (throwMal "unexpected token type, excepted: MalVector")
  else bindingsCheck (seqElems bindings) 0 (seqElems bindings).length

/-- part_001 FN: arity 2, validate the bindings, build the closure carrying
the body ast, the parameter terms, the construction environment and
isMacro = false. -/
def FN (env : Nat) (args : List Term) : Except Exc Term :=
  match args with
  | [bindings, ast] =>
    match checkMalBindings bindings with
    | .error e => .error e
    | .ok _ => .ok (.fn ast (seqElems bindings) env false)
  | _ => .error (throwMal "parameters length unexcepted: fn*")

/-- part_001 isMacroFunction: a non-empty List whose head is a Symbol that
the environment has (checked with env.has before any env.get) and that
resolves to a MalFunction with isMacro true. -/
def isMacroFunction (env : Nat) (ast : Term) (st : Store) : Bool :=
  match ast with
  | .list (head :: _) =>
    match head with
    | .symbol s =>
      if envHas st env s = false then false
      else
        match envLookup st env s with
        | some (.fn _ _ _ mac) => mac
        | _ => false
    | _ => false
  | _ => false

/-- checker.ts checkCatchAst: the catch clause must be a List whose head is
the symbol catch* (else the bare `throw false`, modelled as throwing the
boolean term), with exactly two further elements of which the first is a
symbol. -/
def checkCatchAst (t : Term) : Except Exc Unit :=
  if isMalList t = false then .error (.thrown (.bool false))
  else
    match seqElems t with
    | [] => .error (.thrown (.bool false))
    | catchSymbol :: catchParams =>
      if isMalSymbolCatch catchSymbol = false then .error (.thrown (.bool false))
      else
        match catchParams with
        | [errorSymbol, _] =>
          if isMalSymbol errorSymbol then .ok ()
          else .error (throwMal "unexpected token type, excepted: MalSymbol")
        | _ => .error (throwMal "parameters length unexcepted: catch*")

/-- part_001 QUASIQUOTE, with fuel for the embedding (the source recursion
is structural and the arity check on every inner call sees a singleton, so
the fuelled form agrees with it wherever fuel suffices).  Quote anything
that is not a non-empty List; return an unquote's argument; splice a
splice-unquote head through concat; otherwise cons the rewritten head onto
the rewritten rest.  The symbol names are the spec's, the Symbols enum of
the newer types.ts being absent from src. -/
def QUASIQUOTE : Nat → Nat → List Term → Except Exc Term
  | 0, _, _ => .error .fuel
  | fuel+1, env, args =>
    match args with
    | [ast] =>
      match ast with
      | .list (ast1 :: astRest) =>
        if isSymNamed "unquote" ast1 then
          match astRest with
          | [u] => .ok u
          | _ => .error (throwMal "parameters length unexcepted: unquote")
        else
          match ast1 with
          | .list (ast11 :: ast1Rest) =>
            if isSymNamed "splice-unquote" ast11 then
              match ast1Rest with
              | [ast12] =>
                match QUASIQUOTE fuel env [.list astRest] with
                | .error e => .error e
                | .ok qr => .ok (.list [.symbol "concat", ast12, qr])
              | _ => .error (throwMal "parameters length unexcepted: splice-unquote")
            else
              match QUASIQUOTE fuel env [ast1] with
              | .error e => .error e
              | .ok qa =>
                match QUASIQUOTE fuel env [.list astRest] with
                | .error e => .error e
                | .ok qr => .ok (.list [.symbol "cons", qa, qr])
          | _ =>
            match QUASIQUOTE fuel env [ast1] with
            | .error e => .error e
            | .ok qa =>
              match QUASIQUOTE fuel env [.list astRest] with
              | .error e => .error e
              | .ok qr => .ok (.list [.symbol "cons", qa, qr])
      | _ => .ok (.list [.symbol "quote", ast])
    | _ => .error (throwMal "parameters length unexcepted: quasiquote")

/-- One outcome of the loop body of part_001 EVAL_NOT_CATCH: either the loop
returns, or it rebinds (ast, env) and continues. -/
inductive Step where
  | ret (r : Except Exc Term) (st : Store)
  | cont (ast : Term) (env : Nat) (st : Store)

mutual

/-- part_001 EVAL: run EVAL_NOT_CATCH; when the outcome is a thrown
MalError, push this call's ast onto its trace and rethrow; rethrow every
other throw unchanged. -/
def EVAL (fuel : Nat) (ast : Term) (env : Nat) (st : Store) : EvalRes :=
  match fuel with
  | 0 => (.error .fuel, st)
  | fuel+1 =>
    match EVAL_NOT_CATCH fuel ast env st with
    | (.error (.thrown t), st1) =>
      if isMalError t then (.error (.thrown (pushAst ast t)), st1)
      else (.error (.thrown t), st1)
    | r => r
termination_by structural fuel

/-- part_001 EVAL_NOT_CATCH, the trampoline loop.  Each iteration: a
non-List goes to EVAL_AST; otherwise macro-expand, and a result that is not
sequential goes to EVAL_AST; an empty sequential yields Nil; a symbol head
dispatches the special forms (names per the spec, the Symbols enum being
absent from src), where def!/fn*/quote/defmacro!/try* return and
let*/do/if/eval/quasiquote/macroexpand rebind ast (let* also env) and
continue; everything else is a general application (applyPhase), which
continues for a user function and returns otherwise.  (debugPrint only
prints and is omitted.) -/
def EVAL_NOT_CATCH (fuel : Nat) (ast : Term) (env : Nat) (st : Store) : EvalRes :=
  match fuel with
  | 0 => (.error .fuel, st)
  | fuel+1 =>
    if isMalList ast = false then EVAL_AST fuel ast env st
    else
      match MACROEXPAND fuel env [ast] st with
      | (.error e, st1) => (.error e, st1)
      | (.ok ast1, st1) =>
        if isMalSequential ast1 = false then EVAL_AST fuel ast1 env st1
        else
          match seqElems ast1 with
          | [] => (.ok .nil, st1)
          | .symbol s :: args =>
            if s = "def!" then DEF fuel env args st1
            else if s = "let*" then
              match LET fuel env args st1 with
              | (.error e, st2) => (.error e, st2)
              | (.ok (ast2, env2), st2) => EVAL_NOT_CATCH fuel ast2 env2 st2
            else if s = "do" then
              match DO fuel env args st1 with
              | (.error e, st2) => (.error e, st2)
              | (.ok ast2, st2) => EVAL_NOT_CATCH fuel ast2 env st2
            else if s = "if" then
              match IF fuel env args st1 with
              | (.error e, st2) => (.error e, st2)
              | (.ok ast2, st2) => EVAL_NOT_CATCH fuel ast2 env st2
            else if s = "fn*" then (FN env args, st1)
            else if s = "eval" then
              match EVALFUNC fuel env args st1 with
              | (.error e, st2) => (.error e, st2)
              | (.ok ast2, st2) => EVAL_NOT_CATCH fuel ast2 env st2
            else if s = "quote" then (QUOTE args, st1)
            else if s = "quasiquote" then
              match QUASIQUOTE fuel env args with
              | .error e => (.error e, st1)
              | .ok ast2 => EVAL_NOT_CATCH fuel ast2 env st1
            else if s = "defmacro!" then DEFMACRO fuel env args st1
            else if s = "macroexpand" then
              match MACROEXPAND fuel env args st1 with
              | (.error e, st2) => (.error e, st2)
              | (.ok ast2, st2) => EVAL_NOT_CATCH fuel ast2 env st2
            else if s = "try*" then TRY fuel env args st1
            else
              match applyPhase fuel ast1 env st1 with
              | .ret r st2 => (r, st2)
              | .cont ast2 env2 st2 => EVAL_NOT_CATCH fuel ast2 env2 st2
          | _ :: _ =>
            match applyPhase fuel ast1 env st1 with
            | .ret r st2 => (r, st2)
            | .cont ast2 env2 st2 => EVAL_NOT_CATCH fuel ast2 env2 st2
termination_by structural fuel

/-- part_001 EVAL_AST: a Symbol is looked up; a List, Vector or HashMap has
its elements (for a HashMap, its values) evaluated in order; everything
else is returned unchanged. -/
def EVAL_AST (fuel : Nat) (ast : Term) (env : Nat) (st : Store) : EvalRes :=
  match fuel with
  | 0 => (.error .fuel, st)
  | fuel+1 =>
    match ast with
    | .symbol s => (envGet st env s, st)
    | .list xs =>
      match evalList fuel xs env st with
      | (.error e, st1) => (.error e, st1)
      | (.ok ys, st1) => (.ok (.list ys), st1)
    | .vector xs =>
      match evalList fuel xs env st with
      | (.error e, st1) => (.error e, st1)
      | (.ok ys, st1) => (.ok (.vector ys), st1)
    | .hashmap kvs =>
      match evalHashValues fuel kvs env st with
      | (.error e, st1) => (.error e, st1)
      | (.ok ys, st1) => (.ok (.hashmap ys), st1)
    | t => (.ok t, st)
termination_by structural fuel

/-- The `ast.map(item => EVAL(item, env))` of EVAL_AST: evaluate the
elements left to right, the first throw propagating. -/
def evalList (fuel : Nat) (xs : List Term) (env : Nat) (st : Store) :
    Except Exc (List Term) × Store :=
  match fuel with
  | 0 => (.error .fuel, st)
  | fuel+1 =>
    match xs with
    | [] => (.ok [], st)
    | x :: rest =>
      match EVAL fuel x env st with
      | (.error e, st1) => (.error e, st1)
      | (.ok y, st1) =>
        match evalList fuel rest env st1 with
        | (.error e, st2) => (.error e, st2)
        | (.ok ys, st2) => (.ok (y :: ys), st2)
termination_by structural fuel

/-- The HashMap loop of EVAL_AST over the flattened entries: keys are
copied, values evaluated. -/
def evalHashValues (fuel : Nat) (kvs : List Term) (env : Nat) (st : Store) :
    Except Exc (List Term) × Store :=
  match fuel with
  | 0 => (.error .fuel, st)
  | fuel+1 =>
    match kvs with
    | [] => (.ok [], st)
    | [k] => (.ok [k], st)
    | k :: v :: rest =>
      match EVAL fuel v env st with
      | (.error e, st1) => (.error e, st1)
      | (.ok w, st1) =>
        match evalHashValues fuel rest env st1 with
        | (.error e, st2) => (.error e, st2)
        | (.ok ws, st2) => (.ok (k :: w :: ws), st2)
termination_by structural fuel

/-- part_001 DEF: arity 2, the key a symbol, evaluate the value in the
current environment, bind it there, return it. -/
def DEF (fuel : Nat) (env : Nat) (args : List Term) (st : Store) : EvalRes :=
  match fuel with
  | 0 => (.error .fuel, st)
  | fuel+1 =>
    match args with
    | [key, value] =>
      match key with
      | .symbol s =>
        match EVAL fuel value env st with
        | (.error e, st1) => (.error e, st1)
        | (.ok v, st1) => (.ok v, envSet st1 env s v)
      | _ => (.error (throwMal "unexpected token type, excepted: MalSymbol"), st)
    | _ => (.error (throwMal "parameters length unexcepted: def!"), st)
termination_by structural fuel

/-- part_001 LET: arity 2, the bindings sequential and of even length; bind
each pair in a fresh child environment, evaluating each value there; hand
(body, child env) back for the loop to continue with. -/
def LET (fuel : Nat) (env : Nat) (args : List Term) (st : Store) :
    Except Exc (Term × Nat) × Store :=
  match fuel with
  | 0 => (.error .fuel, st)
  | fuel+1 =>
    match args with
    | [bindings, letAst] =>
      if isMalSequential bindings = false then
        (.error (throwMal "unexpected token type, excepted: MalVector"), st)
      else if (seqElems bindings).length % 2 ≠ 0 then
        (.error (throwMal "unexpected length"), st)
      else
        match newEnv st env with
        | (env2, st1) =>
          match letLoop fuel (seqElems bindings) env2 st1 with
          | (.error e, st2) => (.error e, st2)
          | (.ok _, st2) => (.ok (letAst, env2), st2)
    | _ => (.error (throwMal "parameters length unexcepted: let*"), st)
termination_by structural fuel

/-- The binding loop of LET over the flattened pairs: each key a symbol,
each value evaluated in the child environment and bound there. -/
def letLoop (fuel : Nat) (bs : List Term) (env : Nat) (st : Store) :
    Except Exc Unit × Store :=
  match fuel with
  | 0 => (.error .fuel, st)
  | fuel+1 =>
    match bs with
    | [] => (.ok (), st)
    | [_] => (.ok (), st)
    | k :: v :: rest =>
      match k with
      | .symbol s =>
        match EVAL fuel v env st with
        | (.error e, st1) => (.error e, st1)
        | (.ok w, st1) => letLoop fuel rest env (envSet st1 env s w)
      | _ => (.error (throwMal "unexpected token type, excepted: MalSymbol"), st)
termination_by structural fuel

/-- part_001 DO: at least one argument; evaluate them all through EVAL_AST
on a List of them and hand the last result back for the loop to continue
with (the loop therefore evaluates the last value a second time, as the
source does). -/
def DO (fuel : Nat) (env : Nat) (args : List Term) (st : Store) : EvalRes :=
  match fuel with
  | 0 => (.error .fuel, st)
  | fuel+1 =>
    match args with
    | [] => (.error (throwMal "parameters length unexcepted: do"), st)
    | _ =>
      match EVAL_AST fuel (.list args) env st with
      | (.error e, st1) => (.error e, st1)
      | (.ok results, st1) => (.ok (MalList.last (seqElems results)), st1)
termination_by structural fuel

/-- part_001 IF: push Nil when the else branch is absent, then arity 3;
evaluate only the condition and hand back the chosen branch unevaluated. -/
def IF (fuel : Nat) (env : Nat) (args : List Term) (st : Store) : EvalRes :=
  match fuel with
  | 0 => (.error .fuel, st)
  | fuel+1 =>
    match (if args.length = 2 then args ++ [Term.nil] else args) with
    | [condition, yes, no] =>
      match EVAL fuel condition env st with
      | (.error e, st1) => (.error e, st1)
      | (.ok v, st1) => (.ok (if isPositive v then yes else no), st1)
    | _ => (.error (throwMal "parameters length unexcepted: if"), st)
termination_by structural fuel

/-- part_001 EVALFUNC: arity 1; evaluate the argument in the current
environment and hand the resulting term back for the loop to continue with
(the loop keeps the current environment). -/
def EVALFUNC (fuel : Nat) (env : Nat) (args : List Term) (st : Store) : EvalRes :=
  match fuel with
  | 0 => (.error .fuel, st)
  | fuel+1 =>
    match args with
    | [ast] => EVAL fuel ast env st
    | _ => (.error (throwMal "parameters length unexcepted: eval"), st)
termination_by structural fuel

/-- part_001 DEFMACRO: arity 2, the key a symbol; evaluate the value, which
must be a MalFunction; set its isMacro flag (the source mutates the object,
here the marked copy is what gets bound and returned) and bind it. -/
def DEFMACRO (fuel : Nat) (env : Nat) (args : List Term) (st : Store) : EvalRes :=
  match fuel with
  | 0 => (.error .fuel, st)
  | fuel+1 =>
    match args with
    | [key, value] =>
      match key with
      | .symbol s =>
        match EVAL fuel value env st with
        | (.error e, st1) => (.error e, st1)
        | (.ok func, st1) =>
          match func with
          | .fn fast fparams fenv _ =>
            (.ok (.fn fast fparams fenv true),
             envSet st1 env s (.fn fast fparams fenv true))
          | _ => (.error (throwMal "unexpected token type, excepted: MalFunction"), st1)
      | _ => (.error (throwMal "unexpected token type, excepted: MalSymbol"), st)
    | _ => (.error (throwMal "parameters length unexcepted: defmacro!"), st)
termination_by structural fuel

/-- part_001 MACROEXPAND: arity 1, then the expansion loop on the
argument. -/
def MACROEXPAND (fuel : Nat) (env : Nat) (args : List Term) (st : Store) : EvalRes :=
  match fuel with
  | 0 => (.error .fuel, st)
  | fuel+1 =>
    match args with
    | [ast] => macroLoop fuel ast env st
    | _ => (.error (throwMal "parameters length unexcepted: macroexpand"), st)
termination_by structural fuel

/-- The `while (isMacroFunction ...)` loop of MACROEXPAND: look the head
symbol up and invoke the macro function on the unevaluated rest of the
List (MalFunction.call evaluates the body in a child of the closure's
environment binding the parameters), replacing ast with the result.  The
guard makes the non-function branches unreachable; they mirror func.call's
dynamic dispatch. -/
def macroLoop (fuel : Nat) (ast : Term) (env : Nat) (st : Store) : EvalRes :=
  match fuel with
  | 0 => (.error .fuel, st)
  | fuel+1 =>
    if isMacroFunction env ast st = false then (.ok ast, st)
    else
      match seqElems ast with
      | .symbol s :: args =>
        match envGet st env s with
        | .error e => (.error e, st)
        | .ok func =>
          match func with
          | .fn fast fparams fenv _ =>
            match newEnvBind st fenv fparams args with
            | .error e => (.error e, st)
            | .ok (env2, st1) =>
              match EVAL fuel fast env2 st1 with
              | (.error e, st2) => (.error e, st2)
              | (.ok ast2, st2) => macroLoop fuel ast2 env st2
          | .nativeFn nm =>
            match applyNative nm args with
            | .error e => (.error e, st)
            | .ok ast2 => macroLoop fuel ast2 env st
          | _ => (.error (.thrown (.str "is not callable")), st)
      | _ => (.ok ast, st)
termination_by structural fuel

/-- part_001 TRY: arity 2 and a well-formed catch clause; evaluate the
body; when it throws, bind the caught term as-is to the catch symbol in a
fresh child of the try-site environment and evaluate the handler there;
the embedding's out-of-fuel marker is not an interpreter throw and is not
caught. -/
def TRY (fuel : Nat) (env : Nat) (args : List Term) (st : Store) : EvalRes :=
  match fuel with
  | 0 => (.error .fuel, st)
  | fuel+1 =>
    match args with
    | [ast, catchAst] =>
      match checkCatchAst catchAst with
      | .error e => (.error e, st)
      | .ok _ =>
        match EVAL fuel ast env st with
        | (.ok v, st1) => (.ok v, st1)
        | (.error (.thrown t), st1) =>
          match seqElems catchAst with
          | _ :: errorSymbol :: errorAst :: _ =>
            match newEnvBind st1 env [errorSymbol] [t] with
            | .error e => (.error e, st1)
            | .ok (env2, st2) => EVAL fuel errorAst env2 st2
          | _ => (.error (.thrown (.bool false)), st1)
        | (.error .fuel, st1) => (.error .fuel, st1)
    | _ => (.error (throwMal "parameters length unexcepted: try*"), st)
termination_by structural fuel

/-- The general-application tail of the EVAL_NOT_CATCH loop body: EVAL_AST
the form (the result must be a List), then a user function hands
(body, bound child of its captured environment) back for the loop, a
native is called, and anything else is MalType.call throwing its raw
not-callable string. -/
def applyPhase (fuel : Nat) (ast : Term) (env : Nat) (st : Store) : Step :=
  match fuel with
  | 0 => .ret (.error .fuel) st
  | fuel+1 =>
    match EVAL_AST fuel ast env st with
    | (.error e, st1) => .ret (.error e) st1
    | (.ok r, st1) =>
      if isMalList r = false then
        .ret (.error (throwMal "unexpected token type, excepted: MalList")) st1
      else
        match seqElems r with
        | [] => .ret (.error (.thrown (.str "is not callable"))) st1
        | func :: params =>
          match func with
          | .fn fast fparams fenv _ =>
            match newEnvBind st1 fenv fparams params with
            | .error e => .ret (.error e) st1
            | .ok (env2, st2) => .cont fast env2 st2
          | .nativeFn nm => .ret (applyNative nm params) st1
          | _ => .ret (.error (.thrown (.str "is not callable"))) st1
termination_by structural fuel

end

namespace Rev0

/-- part_000 FN: arity 2 (its check names the `if` symbol, a slip that only
affects the message); the bindings must be a Vector (not a List) of
symbols; build the closure. -/
def FN (env : Nat) (args : List Term) : Except Exc Term :=
  match args with
  | [bindings, ast] =>
    if isMalVector bindings = false then
      .error (throwMal "unexpected token type, excepted: MalVector")
    else if (seqElems bindings).all isMalSymbol = false then
      .error (throwMal "unexpected token type, excepted: MalSymbol")
    else .ok (.fn ast (seqElems bindings) env false)
  | _ => .error (throwMal "parameters length unexcepted: if")

mutual

/-- part_000 EVAL, the earlier revision's trampoline loop: no macro
expansion and no try; a non-List goes to EVAL_AST, an empty List yields
Nil, the head must be a Symbol, def!/fn* return, let*/do/if rebind ast and
continue, everything else is a general application. -/
def EVAL (fuel : Nat) (ast : Term) (env : Nat) (st : Store) : EvalRes :=
  match fuel with
  | 0 => (.error .fuel, st)
  | fuel+1 =>
    if isMalList ast = false then EVAL_AST fuel ast env st
    else
      match seqElems ast with
      | [] => (.ok .nil, st)
      | head :: args =>
        match head with
        | .symbol s =>
          if s = "def!" then DEF fuel env args st
          else if s = "let*" then
            match LET fuel env args st with
            | (.error e, st1) => (.error e, st1)
            | (.ok ast1, st1) => EVAL fuel ast1 env st1
          else if s = "do" then
            match DO fuel env args st with
            | (.error e, st1) => (.error e, st1)
            | (.ok ast1, st1) => EVAL fuel ast1 env st1
          else if s = "if" then
            match IF fuel env args st with
            | (.error e, st1) => (.error e, st1)
            | (.ok ast1, st1) => EVAL fuel ast1 env st1
          else if s = "fn*" then (FN env args, st)
          else
            match applyPhase fuel ast env st with
            | .ret r st1 => (r, st1)
            | .cont ast1 env1 st1 => EVAL fuel ast1 env1 st1
        | _ => (.error (throwMal "unexpected token type, excepted: MalSymbol"), st)
termination_by structural fuel

/-- part_000 EVAL_AST, same dispatch as the later revision's. -/
def EVAL_AST (fuel : Nat) (ast : Term) (env : Nat) (st : Store) : EvalRes :=
  match fuel with
  | 0 => (.error .fuel, st)
  | fuel+1 =>
    match ast with
    | .symbol s => (envGet st env s, st)
    | .list xs =>
      match evalList fuel xs env st with
      | (.error e, st1) => (.error e, st1)
      | (.ok ys, st1) => (.ok (.list ys), st1)
    | .vector xs =>
      match evalList fuel xs env st with
      | (.error e, st1) => (.error e, st1)
      | (.ok ys, st1) => (.ok (.vector ys), st1)
    | .hashmap kvs =>
      match evalHashValues fuel kvs env st with
      | (.error e, st1) => (.error e, st1)
      | (.ok ys, st1) => (.ok (.hashmap ys), st1)
    | t => (.ok t, st)
termination_by structural fuel

/-- part_000's element map of EVAL_AST. -/
def evalList (fuel : Nat) (xs : List Term) (env : Nat) (st : Store) :
    Except Exc (List Term) × Store :=
  match fuel with
  | 0 => (.error .fuel, st)
  | fuel+1 =>
    match xs with
    | [] => (.ok [], st)
    | x :: rest =>
      match EVAL fuel x env st with
      | (.error e, st1) => (.error e, st1)
      | (.ok y, st1) =>
        match evalList fuel rest env st1 with
        | (.error e, st2) => (.error e, st2)
        | (.ok ys, st2) => (.ok (y :: ys), st2)
termination_by structural fuel

/-- part_000's HashMap value map of EVAL_AST. -/
def evalHashValues (fuel : Nat) (kvs : List Term) (env : Nat) (st : Store) :
    Except Exc (List Term) × Store :=
  match fuel with
  | 0 => (.error .fuel, st)
  | fuel+1 =>
    match kvs with
    | [] => (.ok [], st)
    | [k] => (.ok [k], st)
    | k :: v :: rest =>
      match EVAL fuel v env st with
      | (.error e, st1) => (.error e, st1)
      | (.ok w, st1) =>
        match evalHashValues fuel rest env st1 with
        | (.error e, st2) => (.error e, st2)
        | (.ok ws, st2) => (.ok (k :: w :: ws), st2)
termination_by structural fuel

/-- part_000 DEF, the same as the later revision's. -/
def DEF (fuel : Nat) (env : Nat) (args : List Term) (st : Store) : EvalRes :=
  match fuel with
  | 0 => (.error .fuel, st)
  | fuel+1 =>
    match args with
    | [key, value] =>
      match key with
      | .symbol s =>
        match EVAL fuel value env st with
        | (.error e, st1) => (.error e, st1)
        | (.ok v, st1) => (.ok v, envSet st1 env s v)
      | _ => (.error (throwMal "unexpected token type, excepted: MalSymbol"), st)
    | _ => (.error (throwMal "parameters length unexcepted: def!"), st)
termination_by structural fuel

/-- part_000 LET: the bindings must be a Vector of even length; bind the
pairs in a child environment and evaluate the body there; the value goes
back to the loop, which evaluates it a second time (the earlier revision's
LET is not a tail call). -/
def LET (fuel : Nat) (env : Nat) (args : List Term) (st : Store) : EvalRes :=
  match fuel with
  | 0 => (.error .fuel, st)
  | fuel+1 =>
    match args with
    | [bindings, letAst] =>
      if isMalVector bindings = false then
        (.error (throwMal "unexpected token type, excepted: MalVector"), st)
      else if (seqElems bindings).length % 2 ≠ 0 then
        (.error (throwMal "unexpected length"), st)
      else
        match newEnv st env with
        | (env2, st1) =>
          match letLoop fuel (seqElems bindings) env2 st1 with
          | (.error e, st2) => (.error e, st2)
          | (.ok _, st2) => EVAL fuel letAst env2 st2
    | _ => (.error (throwMal "parameters length unexcepted: let*"), st)
termination_by structural fuel

/-- part_000's binding loop of LET. -/
def letLoop (fuel : Nat) (bs : List Term) (env : Nat) (st : Store) :
    Except Exc Unit × Store :=
  match fuel with
  | 0 => (.error .fuel, st)
  | fuel+1 =>
    match bs with
    | [] => (.ok (), st)
    | [_] => (.ok (), st)
    | k :: v :: rest =>
      match k with
      | .symbol s =>
        match EVAL fuel v env st with
        | (.error e, st1) => (.error e, st1)
        | (.ok w, st1) => letLoop fuel rest env (envSet st1 env s w)
      | _ => (.error (throwMal "unexpected token type, excepted: MalSymbol"), st)
termination_by structural fuel

/-- part_000 DO: at least one argument; map EVAL over the arguments and
return the last result (which the loop then evaluates again). -/
def DO (fuel : Nat) (env : Nat) (args : List Term) (st : Store) : EvalRes :=
  match fuel with
  | 0 => (.error .fuel, st)
  | fuel+1 =>
    match args with
    | [] => (.error (throwMal "parameters length unexcepted: do"), st)
    | _ =>
      match evalList fuel args env st with
      | (.error e, st1) => (.error e, st1)
      | (.ok results, st1) => (.ok (MalList.get results ((results.length : Int) - 1)), st1)
termination_by structural fuel

/-- part_000 IF: push Nil when the else branch is absent, then arity 3;
evaluate the condition AND the chosen branch, returning the branch's value
(which the loop then evaluates again): the earlier revision pre-evaluates
the branch instead of handing it back unevaluated. -/
def IF (fuel : Nat) (env : Nat) (args : List Term) (st : Store) : EvalRes :=
  match fuel with
  | 0 => (.error .fuel, st)
  | fuel+1 =>
    match (if args.length = 2 then args ++ [Term.nil] else args) with
    | [condition, yes, no] =>
      match EVAL fuel condition env st with
      | (.error e, st1) => (.error e, st1)
      | (.ok v, st1) =>
        if isPositive v then EVAL fuel yes env st1 else EVAL fuel no env st1
    | _ => (.error (throwMal "parameters length unexcepted: if"), st)
termination_by structural fuel

/-- part_000's general application: EVAL_AST the form (the result must be a
List); a user function hands (body, bound child env) back for the loop; a
native is called; anything else throws not-callable. -/
def applyPhase (fuel : Nat) (ast : Term) (env : Nat) (st : Store) : Step :=
  match fuel with
  | 0 => .ret (.error .fuel) st
  | fuel+1 =>
    match EVAL_AST fuel ast env st with
    | (.error e, st1) => .ret (.error e) st1
    | (.ok r, st1) =>
      if isMalList r = false then
        .ret (.error (throwMal "unexpected token type, excepted: MalList")) st1
      else
        match seqElems r with
        | [] => .ret (.error (.thrown (.str "is not callable"))) st1
        | func :: params =>
          match func with
          | .fn fast fparams fenv _ =>
            match newEnvBind st1 fenv fparams params with
            | .error e => .ret (.error e) st1
            | .ok (env2, st2) => .cont fast env2 st2
          | .nativeFn nm => .ret (applyNative nm params) st1
          | _ => .ret (.error (.thrown (.str "is not callable"))) st1
termination_by structural fuel

end

end Rev0

/-- A JavaScript value as stored in a MalType's `value` field, for the
equality model of src/yamajik/types.ts: a primitive compares by value under
`===`, while an Array or other object compares by identity, modelled as an
object id. -/
inductive JsVal where
  | num (n : Int)
  | str (s : String)
  | boolVal (b : Bool)
  | nullVal
  | undef
  | ref (oid : Nat)
deriving DecidableEq

/-- A MalType instance as the equality of src/yamajik/types.ts sees it: its
object identity (oid), its constructor name (`this.type`) and its `value`
field.  Two live objects are `===` exactly when their oids are equal. -/
structure MalObj where
  oid : Nat
  type : String
  value : JsVal
deriving DecidableEq

/-- JavaScript `===` on the `value` fields: primitive value equality, and
identity for references; values of different kinds are never equal. -/
def jsValEq : JsVal → JsVal → Bool
  | .num a, .num b => a == b
  | .str a, .str b => a == b
  | .boolVal a, .boolVal b => a == b
  | .nullVal, .nullVal => true
  | .undef, .undef => true
  | .ref i, .ref j => i == j
  | _, _ => false

/-- types.ts MalType.valueEqual: `this.type === another.type && this.value
=== another.value`. -/
def MalObj.valueEqual (a b : MalObj) : Bool :=
  a.type == b.type && jsValEq a.value b.value

/-- types.ts MalType.equal: `this === another || this.valueEqual(another)`. -/
def MalObj.equal (a b : MalObj) : Bool :=
  a.oid == b.oid || a.valueEqual b

/-- A MalNumber 1 living at object id 10. -/
def exNum1 : MalObj := ⟨10, "MalNumber", .num 1⟩

/-- A second MalNumber 1, a distinct object (id 11). -/
def exNum2 : MalObj := ⟨11, "MalNumber", .num 1⟩

/-- A MalList whose `value` is the array at id 20. -/
def exList : MalObj := ⟨0, "MalList", .ref 20⟩

/-- A MalVector whose `value` is the array at id 21. -/
def exVec : MalObj := ⟨1, "MalVector", .ref 21⟩

/-- The array heap of the example: the list's array holds the first
MalNumber 1, the vector's array holds the second. -/
def exArr : Nat → List MalObj :=
  fun oid => if oid = 20 then [exNum1] else if oid = 21 then [exNum2] else []

/-- The four bootstrap source strings that part_001 feeds to rep, in order,
right after the built-ins are installed (lines 54-63; the quote characters
inside the third and the backtick inside the fourth are written here as the
hex escapes x27 and x60). -/
def bootstrapSources : List String :=
  ["(def! not (fn* [a] (if a false true)))",
   "(def! load-file (fn* (path) (eval (read-str (str \"(do \" (slurp path) \")\")))))",
   "(defmacro! cond (fn* (& xs) (if (> (count xs) 0) (list \x27if (first xs) (if (> (count xs) 1) (nth xs 1) (throw \"odd number of forms to cond\")) (cons \x27cond (rest (rest xs)))))))",
   "(defmacro! or (fn* (& xs) (if (empty? xs) nil (if (= 1 (count xs)) (first xs) \x60(let* (or_FIXME ~(first xs)) (if or_FIXME or_FIXME (or ~@(rest xs))))))))"]

/-- The second bootstrap string as the spec's section 4.6 (and the claim)
states it: defined from the spec's words, to be compared with the source's
bootstrapSources. -/
def specLoadFileSource : String :=
  "(def! load-file (fn* (path) (eval (read-string (str \"(do \" (slurp path) \"\\nnil)\")))))"

/-- A store holding one empty root frame. -/
def store0 : Store := [⟨none, []⟩]

/-- A store whose root binds x to 1 and whose child frame (the current
environment in the C2 counterexample) rebinds x to 2. -/
def store2 : Store := [⟨none, [("x", .number 1)]⟩, ⟨some 0, [("x", .number 2)]⟩]

/-- A store whose root binds the native `throw`. -/
def storeT : Store := [⟨none, [("throw", Term.nativeFn "throw")]⟩]

/-- A store whose root binds m to a macro function (body `(quote 42)`,
parameter x, captured env 0, isMacro true). -/
def storeM : Store :=
  [⟨none, [("m", Term.fn (.list [.symbol "quote", .number 42]) [.symbol "x"] 0 true)]⟩]

/-- The store after expanding (m 7) in storeM: the macro call allocated the
frame binding x to 7. -/
def storeMX : Store := storeM ++ [⟨some 0, [("x", Term.number 7)]⟩]

/-- C4 counterexample: the second bootstrap string of part_001 is not the
string the claim states (the source calls read-str, not read-string, and
does not append a nil to the (do ...) wrapper). -/
theorem bootstrap_second_source_cex : bootstrapSources[1]? ≠ some specLoadFileSource := by
  decide

/-- C4 (amended): four bootstrap strings are evaluated in order, and the
second is exactly the part_001 string, which defines load-file via
`read-str` and wraps the slurped contents in a plain `(do ...)` form with
no trailing nil; it differs from the spec's string. -/
theorem bootstrap_sources_order :
    bootstrapSources.length = 4
    ∧ bootstrapSources[1]?
        = some "(def! load-file (fn* (path) (eval (read-str (str \"(do \" (slurp path) \")\")))))"
    ∧ bootstrapSources[1]? ≠ some specLoadFileSource := by
  refine ⟨rfl, rfl, ?_⟩
  decide

/-- C3 (amended): equal on a List object and a Vector object is always
false, whatever their elements: they are distinct objects (distinct ids),
and valueEqual compares the constructor names, which differ. -/
theorem equal_list_vector_false (a b : MalObj) (ha : a.type = "MalList")
    (hb : b.type = "MalVector") (hab : a.oid ≠ b.oid) :
    MalObj.equal a b = false := by
  simp [MalObj.equal, MalObj.valueEqual, ha, hb, hab]

/-- C3 witness: the amended theorem at the concrete example objects. -/
theorem equal_list_vector_false_w : MalObj.equal exList exVec = false :=
  equal_list_vector_false exList exVec rfl rfl (by decide)

/-- C3 counterexample: a List and a Vector whose single elements are
pairwise equal under the `equal` of types.ts, yet the two sequentials are
not equal — the claim says `equal(l, v) = true` for such a pair. -/
theorem equal_list_vector_cex :
    MalObj.equal exNum1 exNum2 = true
    ∧ exArr 20 = [exNum1] ∧ exArr 21 = [exNum2]
    ∧ exList.value = JsVal.ref 20 ∧ exVec.value = JsVal.ref 21
    ∧ MalObj.equal exList exVec = false := by
  decide

/-- C9: MalList.get is total — it returns an element of the list or
MalUndefined, returns MalUndefined on every out-of-range index (negative or
past the end), and first() of an empty sequence is MalUndefined. -/
theorem MalList_get_total (value : List Term) (index : Int) :
    (MalList.get value index = Term.undefined ∨ MalList.get value index ∈ value)
    ∧ ((index < 0 ∨ (value.length : Int) ≤ index) → MalList.get value index = Term.undefined)
    ∧ MalList.first ([] : List Term) = Term.undefined := by
  refine ⟨?_, ?_, rfl⟩
  · unfold MalList.get
    by_cases h : index < 0
    · simp [h]
    · simp only [h, if_false]
      cases heq : value[index.toNat]? with
      | none => simp
      | some t => simp [List.getElem?_mem heq]
  · intro h
    unfold MalList.get
    by_cases hneg : index < 0
    · simp [hneg]
    · have hlen : value.length ≤ index.toNat := by omega
      simp [hneg, List.getElem?_eq_none hlen]

/-- C9 witness: the out-of-range clause at a concrete list and index. -/
theorem MalList_get_total_w : MalList.get [Term.number 3] 5 = Term.undefined :=
  (MalList_get_total [Term.number 3] 5).2.1 (Or.inr (by decide))

/-- C7: whenever EVAL_NOT_CATCH throws a MalError, the enclosing EVAL
appends exactly its own ast to the end of the error's trace and rethrows:
no earlier entry is removed or altered, so nested EVAL calls leave the
trace in innermost-first order. -/
theorem EVAL_pushes_ast_on_error (fuel : Nat) (ast : Term) (env : Nat)
    (st st1 : Store) (w : Term) (tr : List Term)
    (h : EVAL_NOT_CATCH fuel ast env st = (.error (.thrown (.error w tr)), st1)) :
    EVAL (fuel+1) ast env st
      = (.error (.thrown (.error w (tr ++ [ast]))), st1) := by
  simp only [EVAL, h, isMalError, pushAst]
  simp

/-- C7 witness: evaluating (do nope) in the empty root environment unwinds
through two EVAL layers and accumulates the trace [nope, (do nope)],
innermost first. -/
theorem EVAL_pushes_ast_on_error_w :
    EVAL 20 (.list [.symbol "do", .symbol "nope"]) 0 store0
      = (.error (.thrown (.error (.str "unbound symbol: nope")
          [.symbol "nope", .list [.symbol "do", .symbol "nope"]])), store0) :=
  EVAL_pushes_ast_on_error 19 (.list [.symbol "do", .symbol "nope"]) 0 store0 store0
    (.str "unbound symbol: nope") [.symbol "nope"] rfl

/-- C2 (amended): for an `(eval x)` form whose head is not shadowed by a
macro, the evaluator evaluates x in the CURRENT environment and
tail-continues the loop with the resulting term paired with that same
current environment — not the root environment. -/
theorem EVALFUNC_tail_continues_current_env (m : Nat) (x : Term) (env : Nat)
    (st : Store) (t : Term) (st1 : Store)
    (hm : isMacroFunction env (Term.list [Term.symbol "eval", x]) st = false)
    (he : EVAL (m+1) x env st = (.ok t, st1)) :
    EVAL_NOT_CATCH (m+3) (Term.list [Term.symbol "eval", x]) env st
      = EVAL_NOT_CATCH (m+2) t env st1 := by
  have h1 : MACROEXPAND (m+2) env [Term.list [Term.symbol "eval", x]] st
      = (.ok (Term.list [Term.symbol "eval", x]), st) := by
    simp only [MACROEXPAND, macroLoop, hm]
    simp
  have h2 : EVALFUNC (m+2) env [x] st = (.ok t, st1) := by
    simp only [EVALFUNC, he]
  conv_lhs => rw [EVAL_NOT_CATCH.eq_def]
  simp only [h1]
  simp +decide [isMalList, isMalSequential, seqElems]
  rw [h2]

/-- C2 witness: the amended theorem at a concrete input. -/
theorem EVALFUNC_tail_continues_current_env_w :
    EVAL_NOT_CATCH 5 (Term.list [Term.symbol "eval", Term.number 7]) 0 store0
      = EVAL_NOT_CATCH 4 (Term.number 7) 0 store0 :=
  EVALFUNC_tail_continues_current_env 2 (Term.number 7) 0 store0 (Term.number 7) store0 rfl rfl

/-- C2 counterexample: with x bound to 1 in the root frame 0 and rebound to
2 in the child frame 1, evaluating `(eval (quote x))` in the child yields 2
— the binding of the current environment, not the root's 1, refuting the
claim that the term is re-evaluated in the root environment. -/
theorem EVALFUNC_uses_current_env_cex :
    envGet store2 0 "x" = .ok (.number 1)
    ∧ envGet store2 1 "x" = .ok (.number 2)
    ∧ EVAL 20 (.list [.symbol "eval", .list [.symbol "quote", .symbol "x"]]) 1 store2
        = (.ok (.number 2), store2)
    ∧ Term.number 2 ≠ Term.number 1 := by
  refine ⟨rfl, rfl, rfl, ?_⟩
  simp

/-- C1 (amended): in the trampolined evaluator (part_001), an `if` form
whose head is not shadowed by a macro evaluates only its condition and
tail-continues the loop with the chosen branch unevaluated — the
then-branch when the condition is truthy, else the else-branch, or Nil
when the else-branch is absent. -/
theorem IF_tail_continues_unevaluated (m : Nat) (c y n : Term) (env : Nat)
    (st : Store) (v : Term) (st1 : Store)
    (hm3 : isMacroFunction env (.list [.symbol "if", c, y, n]) st = false)
    (hm2 : isMacroFunction env (.list [.symbol "if", c, y]) st = false)
    (hc : EVAL (m+1) c env st = (.ok v, st1)) :
    EVAL_NOT_CATCH (m+3) (.list [.symbol "if", c, y, n]) env st
      = EVAL_NOT_CATCH (m+2) (if isPositive v then y else n) env st1
    ∧ EVAL_NOT_CATCH (m+3) (.list [.symbol "if", c, y]) env st
      = EVAL_NOT_CATCH (m+2) (if isPositive v then y else Term.nil) env st1 := by
  have hif3 : IF (m+2) env [c, y, n] st = (.ok (if isPositive v then y else n), st1) := by
    simp only [IF]
    simp
    rw [hc]
  have hif2 : IF (m+2) env [c, y] st = (.ok (if isPositive v then y else Term.nil), st1) := by
    simp only [IF]
    simp
    rw [hc]
  constructor
  · have h1 : MACROEXPAND (m+2) env [Term.list [.symbol "if", c, y, n]] st
        = (.ok (Term.list [.symbol "if", c, y, n]), st) := by
      simp only [MACROEXPAND, macroLoop, hm3]
      simp
    conv_lhs => rw [EVAL_NOT_CATCH.eq_def]
    simp only [h1]
    simp +decide [isMalList, isMalSequential, seqElems]
    rw [hif3]
  · have h1 : MACROEXPAND (m+2) env [Term.list [.symbol "if", c, y]] st
        = (.ok (Term.list [.symbol "if", c, y]), st) := by
      simp only [MACROEXPAND, macroLoop, hm2]
      simp
    conv_lhs => rw [EVAL_NOT_CATCH.eq_def]
    simp only [h1]
    simp +decide [isMalList, isMalSequential, seqElems]
    rw [hif2]

/-- C1 witness: the amended theorem at a concrete truthy condition: both
the three- and two-argument forms continue with the unevaluated branch. -/
theorem IF_tail_continues_unevaluated_w :
    EVAL_NOT_CATCH 5 (.list [.symbol "if", .number 7, .symbol "y", .symbol "n"]) 0 store0
      = EVAL_NOT_CATCH 4 (.symbol "y") 0 store0
    ∧ EVAL_NOT_CATCH 5 (.list [.symbol "if", .number 7, .symbol "y"]) 0 store0
      = EVAL_NOT_CATCH 4 (.symbol "y") 0 store0 := by
  simpa using IF_tail_continues_unevaluated 2 (.number 7) (.symbol "y") (.symbol "n")
    0 store0 (.number 7) store0 rfl rfl rfl

/-- C1 counterexample: the earlier revision's IF (part_000) pre-evaluates
the chosen branch: with truthy condition 1 and then-branch the empty list,
it returns Nil — the empty list's value — instead of handing back the
branch unevaluated, refuting the claim for that revision. -/
theorem Rev0_IF_preevaluates_cex :
    Rev0.IF 9 0 [Term.number 1, Term.list [], Term.nil] store0 = (.ok Term.nil, store0)
    ∧ Term.nil ≠ Term.list [] := by
  refine ⟨rfl, ?_⟩
  simp

/-- C6: for `(try* a (catch* name body))`, when evaluating a succeeds its
value is returned and nothing is bound; when it throws a term t, the catch
symbol is bound to t itself — exactly the caught term, with no error
wrapper added — in a fresh child frame of the try-site environment, and
body is evaluated there. -/
theorem TRY_catch_semantics (fuel env : Nat) (st : Store) (a : Term)
    (name : String) (body : Term) (hn : name ≠ "&") :
    (∀ v st1, EVAL fuel a env st = (.ok v, st1) →
      TRY (fuel+1) env [a, .list [.symbol "catch*", .symbol name, body]] st = (.ok v, st1))
    ∧ (∀ t st1, EVAL fuel a env st = (.error (.thrown t), st1) →
      TRY (fuel+1) env [a, .list [.symbol "catch*", .symbol name, body]] st
        = EVAL fuel body st1.length (st1 ++ [⟨some env, [(name, t)]⟩])) := by
  constructor
  · intro v st1 h
    simp only [TRY]
    simp +decide [checkCatchAst, isMalList, seqElems, isMalSymbolCatch, isSymNamed, isMalSymbol]
    rw [h]
  · intro t st1 h
    simp only [TRY]
    simp +decide [checkCatchAst, isMalList, seqElems, isMalSymbolCatch, isSymNamed, isMalSymbol]
    rw [h]
    simp [newEnvBind, bindEntries, hn]

/-- C6 witness: `(try* (throw 5) (catch* err err))` binds err to the Term 5
itself — not to a wrapper — and the handler returns it. -/
theorem TRY_catch_semantics_w :
    TRY 21 0 [Term.list [Term.symbol "throw", Term.number 5],
        Term.list [Term.symbol "catch*", Term.symbol "err", Term.symbol "err"]] storeT
      = (.ok (.number 5), storeT ++ [⟨some 0, [("err", Term.number 5)]⟩]) := by
  have h := (TRY_catch_semantics 20 0 storeT (Term.list [Term.symbol "throw", Term.number 5])
    "err" (Term.symbol "err") (by decide)).2 (Term.number 5) storeT rfl
  rw [h]
  rfl

/-- Shape of a macro call: when isMacroFunction holds, the ast is a
non-empty List with a Symbol head that the environment resolves to a
MalFunction marked isMacro. -/
theorem isMacroFunction_shape (env : Nat) (ast : Term) (st : Store)
    (h : isMacroFunction env ast st = true) :
    ∃ s rest fast fparams fenv, ast = .list (.symbol s :: rest)
      ∧ envLookup st env s = some (.fn fast fparams fenv true) := by
  unfold isMacroFunction at h
  rcases ast with _|_|_|_|_|_|xs|_|_|_|_|_|_|_ <;> simp_all
  rcases xs with _ | ⟨hd, rest⟩
  · simp_all
  · rcases hd with _|_|_|_|_|hs|_|_|_|_|_|_|_|_ <;> simp_all
    rcases hl : envLookup st env hs with _ | v
    · simp_all [envHas]
    · rw [hl] at h
      rcases v with _|_|_|_|_|_|_|_|_|⟨fa, fp, fe, mac⟩|_|_|_|_ <;> simp_all [envHas]

/-- C10: for a non-empty List whose Symbol head does not resolve to a macro
function (unbound, bound to a non-Function, or to a Function with isMacro
false), MACROEXPAND returns the ast unchanged with an ok outcome — in
particular the unbound case raises no UnboundSymbol, because
isMacroFunction tests membership with env.has before any env.get. -/
theorem MACROEXPAND_non_macro_call (fuel env : Nat) (st : Store) (s : String)
    (rest : List Term)
    (h : ∀ fast fparams fenv, envLookup st env s ≠ some (.fn fast fparams fenv true)) :
    MACROEXPAND (fuel+2) env [.list (.symbol s :: rest)] st
      = (.ok (.list (.symbol s :: rest)), st) := by
  have hg : isMacroFunction env (.list (.symbol s :: rest)) st = false := by
    by_contra hc
    have ht : isMacroFunction env (.list (.symbol s :: rest)) st = true := by
      revert hc; cases isMacroFunction env (.list (.symbol s :: rest)) st <;> simp
    obtain ⟨s2, rest2, fa, fp, fe, heq, hlk⟩ := isMacroFunction_shape env _ st ht
    have hs2 : s2 = s := by
      simp at heq
      exact heq.1.symm
    subst hs2
    exact h fa fp fe hlk
  simp only [MACROEXPAND, macroLoop, hg]
  simp

/-- C10 witness: (foo 1) with foo unbound macroexpands to itself without
error. -/
theorem MACROEXPAND_non_macro_call_w :
    MACROEXPAND 5 0 [.list [.symbol "foo", .number 1]] store0
      = (.ok (.list [.symbol "foo", .number 1]), store0) :=
  MACROEXPAND_non_macro_call 3 0 store0 "foo" [.number 1]
    (by intro fa fp fe hx; rw [show envLookup store0 0 "foo" = none from rfl] at hx; cases hx)

/-- The expansion loop's exit condition: an ok result of macroLoop is never
itself a macro call in the resulting store. -/
theorem macroLoop_ok_not_macro (fuel : Nat) :
    ∀ (ast : Term) (env : Nat) (st : Store) (a : Term) (st1 : Store),
      macroLoop fuel ast env st = (.ok a, st1) → isMacroFunction env a st1 = false := by
  induction fuel with
  | zero =>
    intro ast env st a st1 h
    simp [macroLoop] at h
  | succ f ih =>
    intro ast env st a st1 h
    simp only [macroLoop] at h
    by_cases hg : isMacroFunction env ast st = false
    · rw [if_pos hg] at h
      simp at h
      obtain ⟨h1, h2⟩ := h
      subst h1; subst h2
      exact hg
    · rw [if_neg hg] at h
      have ht : isMacroFunction env ast st = true := by
        revert hg; cases isMacroFunction env ast st <;> simp
      obtain ⟨s, rest, fa, fp, fe, rfl, hlk⟩ := isMacroFunction_shape env ast st ht
      simp only [seqElems] at h
      have hget : envGet st env s = .ok (.fn fa fp fe true) := by
        simp [envGet, hlk]
      rw [hget] at h
      dsimp only [] at h
      rcases hb : newEnvBind st fe fp rest with e2 | p
      · rw [hb] at h; simp at h
      · obtain ⟨env2, st2⟩ := p
        rw [hb] at h
        dsimp only [] at h
        rcases hev : EVAL f fa env2 st2 with ⟨r, st3⟩
        rw [hev] at h
        rcases r with e3 | ast2
        · simp at h
        · exact ih ast2 env st3 a st1 h

/-- C8: macroexpand is idempotent — when one MACROEXPAND call returns a
term with an ok outcome, expanding that term again (in the resulting
store) returns it unchanged, and the result is never itself a non-empty
List whose head Symbol resolves to a Function marked isMacro. -/
theorem MACROEXPAND_idempotent (fuel fuel2 env : Nat) (st : Store) (ast a : Term)
    (st1 : Store) (h : MACROEXPAND fuel env [ast] st = (.ok a, st1)) :
    MACROEXPAND (fuel2+2) env [a] st1 = (.ok a, st1)
    ∧ isMacroFunction env a st1 = false := by
  rcases fuel with _ | f
  · simp [MACROEXPAND] at h
  · simp only [MACROEXPAND] at h
    have hg := macroLoop_ok_not_macro f ast env st a st1 h
    refine ⟨?_, hg⟩
    simp only [MACROEXPAND, macroLoop, hg]
    simp

/-- C8 witness: expanding (m 7), where m is a macro whose body is
(quote 42), yields 42; expanding 42 again leaves it unchanged. -/
theorem MACROEXPAND_idempotent_w :
    MACROEXPAND 7 0 [Term.number 42] storeMX = (.ok (Term.number 42), storeMX)
    ∧ isMacroFunction 0 (Term.number 42) storeMX = false :=
  MACROEXPAND_idempotent 20 5 0 storeM (Term.list [Term.symbol "m", Term.number 7])
    (Term.number 42) storeMX rfl

/-- C5 (amended): the quasiquote rewrite returns `(quote x)` exactly when x
is not a List or is the empty List; only non-empty Lists are processed
structurally by the unquote, splice-unquote and cons rules — a non-empty
Vector is quoted whole, not processed. -/
theorem QUASIQUOTE_quote_iff (fuel env : Nat) (x : Term) :
    QUASIQUOTE (fuel+1) env [x] = .ok (Term.list [Term.symbol "quote", x])
      ↔ (isMalList x = false ∨ x = Term.list []) := by
  constructor
  · intro h
    rcases x with _|_|_|_|_|_|xs|_|_|_|_|_|_|_ <;> try exact Or.inl rfl
    rcases xs with _ | ⟨a, rest⟩
    · exact Or.inr rfl
    · exfalso
      simp only [QUASIQUOTE] at h
      split at h
      · split at h
        · rename_i u
          simp only [Except.ok.injEq] at h
          have hsz := congrArg sizeOf h
          simp [Term.list.sizeOf_spec, Term.symbol.sizeOf_spec] at hsz
          omega
        · simp at h
      · split at h
        · split at h
          · split at h
            · split at h
              · simp at h
              · simp at h
            · simp at h
          · split at h
            · simp at h
            · split at h
              · simp at h
              · simp at h
        · split at h
          · simp at h
          · split at h
            · simp at h
            · simp at h
  · intro h
    rcases h with h | rfl
    · rcases x with _|_|_|_|_|_|xs|_|_|_|_|_|_|_ <;> first | rfl | (simp [isMalList] at h)
    · rfl

/-- C5 counterexample: the non-empty Vector [1] is a sequential, yet the
quasiquote rewrite returns `(quote [1])` instead of processing it
structurally, refuting the claim's sequential-based characterisation. -/
theorem QUASIQUOTE_vector_quoted_cex :
    isMalSequential (Term.vector [Term.number 1]) = true
    ∧ QUASIQUOTE 1 0 [Term.vector [Term.number 1]]
        = .ok (Term.list [Term.symbol "quote", Term.vector [Term.number 1]]) :=
  ⟨rfl, rfl⟩
